import Mathlib

/-!
Verification of the elasticity estimation engine of the `llm_pricing`
repository.

The estimators (`elasticity_api.py` and `compute_elasticities.py`) work on
rows of (quantity, price) read from a SQLite `orders` table.  Quantities and
prices are database decimals, modelled as rationals; the log-log OLS fit of
`statsmodels` is modelled over the real numbers (`Real.log`, exact real
arithmetic in place of IEEE doubles).  Stateful pieces (the SQLite results
tables) are modelled as explicit list-valued stores passed through the batch
entry point.
-/

set_option maxRecDepth 4000

/-- A row of the `orders` table.  Only the columns the elasticity engine
reads are modelled (`create_data.py` always populates every column, so the
pandas `dropna()` calls in `compute_elasticities.py` are identities and the
id columns are modelled as non-nullable integers). -/
structure Order where
  customer_id : Int
  product_id : Int
  quantity : ℚ
  regular_price : ℚ
  sale_price : ℚ
deriving DecidableEq

/-- The validity filter shared by both implementations of
`compute_price_elasticity`:
`df = df[(df["quantity"] > 0) & (df[price_col] > 0)]`.
The first component of a pair is the quantity, the second the price. -/
def validRows (rows : List (ℚ × ℚ)) : List (ℚ × ℚ) :=
  rows.filter fun r => decide (0 < r.1) && decide (0 < r.2)

/-- Sum of the first coordinates (the regressor, here log price). -/
noncomputable def sumX (pts : List (ℝ × ℝ)) : ℝ := (pts.map fun p => p.1).sum

/-- Sum of the second coordinates (the response, here log quantity). -/
noncomputable def sumY (pts : List (ℝ × ℝ)) : ℝ := (pts.map fun p => p.2).sum

/-- Sum of squared first coordinates. -/
noncomputable def sumXX (pts : List (ℝ × ℝ)) : ℝ := (pts.map fun p => p.1 ^ 2).sum

/-- Sum of coordinate products. -/
noncomputable def sumXY (pts : List (ℝ × ℝ)) : ℝ := (pts.map fun p => p.1 * p.2).sum

open Classical in
/-- The slope coefficient fitted by
`smf.ols("log_quantity ~ log_price", data=df).fit().params["log_price"]`.

`statsmodels` solves the least-squares problem with the Moore-Penrose
pseudoinverse of the design matrix `[1, x]`.  When the design matrix has
full rank (the `x` values are not all equal) this is the textbook OLS slope
`(n·Σxy − Σx·Σy) / (n·Σx² − (Σx)²)`.  When every `x` equals the same value
`c` the matrix is rank deficient and the pseudoinverse returns the
minimum-norm least-squares solution, whose slope component is
`c·ȳ/(1 + c²)`; no exception is raised and no NaN is produced. -/
noncomputable def olsSlope (pts : List (ℝ × ℝ)) : ℝ :=
  if (pts.length : ℝ) * sumXX pts - (sumX pts) ^ 2 = 0 then
    (sumX pts / pts.length) * (sumY pts / pts.length) /
      (1 + (sumX pts / pts.length) ^ 2)
  else
    ((pts.length : ℝ) * sumXY pts - sumX pts * sumY pts) /
      ((pts.length : ℝ) * sumXX pts - (sumX pts) ^ 2)

/-- The only typed failure either implementation of
`compute_price_elasticity` can raise: the `ValueError` thrown when fewer
than two valid rows remain after filtering. -/
inductive EstimError where
  | insufficientData
deriving DecidableEq

/-- The `str(e)` payload of the `ValueError` raised by
`elasticity_api.compute_price_elasticity` (the API endpoints forward it as
the HTTP 400 detail). -/
def EstimError.message : EstimError → String
  | .insufficientData => "Not enough valid data points to run the regression (need at least 2)."

/-- `compute_price_elasticity` from `elasticity_api.py`: filter invalid
rows, require at least two remaining, regress log quantity on log price and
return the raw signed slope coefficient. -/
noncomputable def ElasticityApi.compute_price_elasticity
    (rows : List (ℚ × ℚ)) : Except EstimError ℝ :=
  if (validRows rows).length < 2 then
    .error .insufficientData
  else
    .ok (olsSlope ((validRows rows).map fun r =>
      (Real.log (r.2 : ℝ), Real.log (r.1 : ℝ))))

/-- `compute_price_elasticity` from `compute_elasticities.py`: identical to
the API variant except that it returns `np.abs(elasticity)`. -/
noncomputable def Batch.compute_price_elasticity
    (rows : List (ℚ × ℚ)) : Except EstimError ℝ :=
  if (validRows rows).length < 2 then
    .error .insufficientData
  else
    .ok |olsSlope ((validRows rows).map fun r =>
      (Real.log (r.2 : ℝ), Real.log (r.1 : ℝ)))|

/-- Order-preserving deduplication with an accumulator of already seen
elements; models the first-occurrence semantics of pandas `unique()` /
`drop_duplicates()`. -/
def uniqueFirstFrom [DecidableEq α] (seen : List α) : List α → List α
  | [] => []
  | x :: xs =>
    if x ∈ seen then uniqueFirstFrom seen xs
    else x :: uniqueFirstFrom (x :: seen) xs

/-- pandas `Series.unique()` / `DataFrame.drop_duplicates()`: the distinct
values in order of first occurrence. -/
def uniqueFirst [DecidableEq α] (l : List α) : List α := uniqueFirstFrom [] l

/-- `price_types = ["regular_price", "sale_price"]` from
`compute_elasticities.py` — these are the database column names, not the
`{regular, sale}` enumeration the API accepts. -/
def price_types : List String := ["regular_price", "sale_price"]

/-- `df_orders["product_id"].dropna().unique().tolist()`. -/
def productEntities (orders : List Order) : List Int :=
  uniqueFirst (orders.map fun o => o.product_id)

/-- `df_orders["customer_id"].dropna().unique().tolist()`. -/
def customerEntities (orders : List Order) : List Int :=
  uniqueFirst (orders.map fun o => o.customer_id)

/-- `df_orders[["customer_id","product_id"]].drop_duplicates()`: the
observed (customer, product) pairs in order of first occurrence. -/
def pairEntities (orders : List Order) : List (Int × Int) :=
  uniqueFirst (orders.map fun o => (o.customer_id, o.product_id))

/-- `df_orders[df_orders["product_id"] == pid]`. -/
def ordersForProduct (orders : List Order) (pid : Int) : List Order :=
  orders.filter fun o => decide (o.product_id = pid)

/-- `df_orders[df_orders["customer_id"] == cid]`. -/
def ordersForCustomer (orders : List Order) (cid : Int) : List Order :=
  orders.filter fun o => decide (o.customer_id = cid)

/-- `df_orders[(df_orders["customer_id"] == cid) & (df_orders["product_id"] == pid)]`. -/
def ordersForPair (orders : List Order) (cid pid : Int) : List Order :=
  orders.filter fun o => decide (o.customer_id = cid) && decide (o.product_id = pid)

/-- Column lookup `df[col]` for the price column.  Only the two column
names in `price_types` ever reach this lookup in the source. -/
def priceOfCol (o : Order) (col : String) : ℚ :=
  if col = "regular_price" then o.regular_price else o.sale_price

/-- Projection of a filtered orders frame to the (quantity, price) pairs
fed into `compute_price_elasticity`. -/
def dfRows (orders : List Order) (col : String) : List (ℚ × ℚ) :=
  orders.map fun o => (o.quantity, priceOfCol o col)

/-- A row of the `computed_product_elasticities` table (the autoincrement
`id` column is not modelled). -/
structure ProductRow where
  product_id : Int
  price_type : String
  elasticity : Option ℝ

/-- A row of the `computed_customer_elasticities` table. -/
structure CustomerRow where
  customer_id : Int
  price_type : String
  elasticity : Option ℝ

/-- A row of the `computed_c_p_elasticities` table. -/
structure PairRow where
  customer_id : Int
  product_id : Int
  price_type : String
  elasticity : Option ℝ

/-- The batch orchestrator `compute_elasticities()` from
`compute_elasticities.py`: for each distinct entity of each kind and each
price type it runs the estimator, turns the caught `ValueError` into a null
(`Except.toOption`), and emits one row.  Console `print` calls are omitted.
Note the customer branch wraps the (already absolute) estimator result in a
second `np.abs`, modelled by `Except.map |·|`. -/
noncomputable def compute_elasticities (orders : List Order) :
    List ProductRow × List CustomerRow × List PairRow :=
  ( (productEntities orders).flatMap fun pid => price_types.map fun pt =>
      ProductRow.mk pid pt
        (Batch.compute_price_elasticity (dfRows (ordersForProduct orders pid) pt)).toOption,
    (customerEntities orders).flatMap fun cid => price_types.map fun pt =>
      CustomerRow.mk cid pt
        (Except.map (fun x => |x|)
          (Batch.compute_price_elasticity (dfRows (ordersForCustomer orders cid) pt))).toOption,
    (pairEntities orders).flatMap fun cp => price_types.map fun pt =>
      PairRow.mk cp.1 cp.2 pt
        (Batch.compute_price_elasticity (dfRows (ordersForPair orders cp.1 cp.2) pt)).toOption )

/-- The error outcomes of the API endpoint `get_product_elasticity`:
the 400 raised for an unknown price type, and the 400 carrying the
`str(e)` of a `ValueError` from the estimator. -/
inductive ApiError where
  | invalidPriceType
  | badRequest (detail : String)
deriving DecidableEq

/-- The JSON body returned by `get_product_elasticity` on success. -/
structure ProductResponse where
  type : String
  product_id : Int
  price_type : String
  elasticity : ℝ

/-- The SQL query of `get_product_elasticity`:
`SELECT quantity, {price_col} as price FROM orders WHERE product_id = ?`. -/
def productQuery (orders : List Order) (product_id : Int) (price_col : String) :
    List (ℚ × ℚ) :=
  (orders.filter fun o => decide (o.product_id = product_id)).map fun o =>
    (o.quantity, priceOfCol o price_col)

/-- The `/elasticity/product` endpoint from `elasticity_api.py`. -/
noncomputable def get_product_elasticity (orders : List Order)
    (product_id : Int) (price_type : String) : Except ApiError ProductResponse :=
  if price_type ∈ (["regular", "sale"] : List String) then
    match ElasticityApi.compute_price_elasticity
        (productQuery orders product_id
          (if price_type = "regular" then "regular_price" else "sale_price")) with
    | .error e => .error (.badRequest e.message)
    | .ok v => .ok (ProductResponse.mk "product_elasticity" product_id price_type v)
  else
    .error .invalidPriceType

/-- The three SQLite results tables. -/
structure ResultsStore where
  products : List ProductRow
  customers : List CustomerRow
  pairs : List PairRow

/-- `create_result_tables()` issues `CREATE TABLE IF NOT EXISTS` for the
three tables: on a store whose tables already exist it keeps every existing
row (it never clears). -/
def create_result_tables (s : ResultsStore) : ResultsStore := s

/-- One run of the batch entry point `compute_elasticities()` against a
results store: ensure the tables exist, then `INSERT` (append) every
computed row. -/
noncomputable def run_batch (orders : List Order) (s : ResultsStore) : ResultsStore :=
  ResultsStore.mk
    ((create_result_tables s).products ++ (compute_elasticities orders).1)
    ((create_result_tables s).customers ++ (compute_elasticities orders).2.1)
    ((create_result_tables s).pairs ++ (compute_elasticities orders).2.2)

/-- A freshly created database with empty results tables. -/
def emptyStore : ResultsStore := ResultsStore.mk [] [] []

/-- A one-transaction store: customer 1 bought product 7, quantity 3, at
regular price 10 and sale price 8. -/
def sampleOrders : List Order := [Order.mk 1 7 3 10 8]

/-! ### List-sum algebra for the OLS slope -/

lemma sumX_nil : sumX [] = 0 := rfl

lemma sumX_cons (p : ℝ × ℝ) (l : List (ℝ × ℝ)) : sumX (p :: l) = p.1 + sumX l := by
  simp [sumX]

lemma sumY_nil : sumY [] = 0 := rfl

lemma sumY_cons (p : ℝ × ℝ) (l : List (ℝ × ℝ)) : sumY (p :: l) = p.2 + sumY l := by
  simp [sumY]

lemma sumXX_cons (p : ℝ × ℝ) (l : List (ℝ × ℝ)) : sumXX (p :: l) = p.1 ^ 2 + sumXX l := by
  simp [sumXX]

lemma sumXY_cons (p : ℝ × ℝ) (l : List (ℝ × ℝ)) : sumXY (p :: l) = p.1 * p.2 + sumXY l := by
  simp [sumXY]

lemma sum_map_add (xs : List α) (f g : α → ℝ) :
    (xs.map fun a => f a + g a).sum = (xs.map f).sum + (xs.map g).sum := by
  induction xs with
  | nil => simp
  | cons x xs ih => simp [ih]; ring

lemma sum_sq_sub (x : ℝ) (xs : List ℝ) :
    (xs.map fun b => (x - b) ^ 2).sum
      = xs.length * x ^ 2 - 2 * x * xs.sum + (xs.map fun b => b ^ 2).sum := by
  induction xs with
  | nil => simp
  | cons c cs ih =>
    simp only [List.map_cons, List.sum_cons, List.length_cons, ih]
    push_cast
    ring

lemma sum_sq_sub' (x : ℝ) (xs : List ℝ) :
    (xs.map fun a => (a - x) ^ 2).sum
      = xs.length * x ^ 2 - 2 * x * xs.sum + (xs.map fun a => a ^ 2).sum := by
  induction xs with
  | nil => simp
  | cons c cs ih =>
    simp only [List.map_cons, List.sum_cons, List.length_cons, ih]
    push_cast
    ring

/-- Sum over all ordered pairs of elements of the squared difference.
This is the standard witness that the OLS denominator is a (scaled)
variance. -/
noncomputable def pairSum (xs : List ℝ) : ℝ :=
  (xs.map fun a => (xs.map fun b => (a - b) ^ 2).sum).sum

lemma pairSum_eq (xs : List ℝ) :
    pairSum xs
      = 2 * ((xs.length : ℝ) * (xs.map fun x => x ^ 2).sum - xs.sum ^ 2) := by
  induction xs with
  | nil => simp [pairSum]
  | cons x l ih =>
    unfold pairSum at ih ⊢
    simp only [List.map_cons, List.sum_cons, List.length_cons]
    rw [sum_map_add l (fun a => (a - x) ^ 2) (fun a => (l.map fun b => (a - b) ^ 2).sum)]
    rw [ih, sum_sq_sub x l, sum_sq_sub' x l]
    push_cast
    ring

lemma pairSum_pos (xs : List ℝ) {a b : ℝ} (ha : a ∈ xs) (hb : b ∈ xs)
    (hab : a ≠ b) : 0 < pairSum xs := by
  have hsq : 0 < (a - b) ^ 2 :=
    lt_of_le_of_ne (sq_nonneg _) (Ne.symm (pow_ne_zero 2 (sub_ne_zero.mpr hab)))
  have h1 : (a - b) ^ 2 ≤ (xs.map fun c => (a - c) ^ 2).sum := by
    apply List.single_le_sum
    · intro y hy
      rcases List.mem_map.mp hy with ⟨c, _, rfl⟩
      exact sq_nonneg _
    · exact List.mem_map_of_mem _ hb
  have h2 : (xs.map fun c => (a - c) ^ 2).sum ≤ pairSum xs := by
    apply List.single_le_sum
    · intro y hy
      rcases List.mem_map.mp hy with ⟨c, _, rfl⟩
      apply List.sum_nonneg
      intro z hz
      rcases List.mem_map.mp hz with ⟨d, _, rfl⟩
      exact sq_nonneg _
    · exact List.mem_map_of_mem _ ha
  linarith

/-- The OLS denominator is positive whenever two regressor values differ. -/
lemma den_pos (pts : List (ℝ × ℝ)) {p q : ℝ × ℝ} (hp : p ∈ pts) (hq : q ∈ pts)
    (hpq : p.1 ≠ q.1) :
    0 < (pts.length : ℝ) * sumXX pts - (sumX pts) ^ 2 := by
  have hx : pairSum (pts.map fun r => r.1)
      = 2 * ((pts.length : ℝ) * sumXX pts - (sumX pts) ^ 2) := by
    have := pairSum_eq (pts.map fun r => r.1)
    simpa [sumX, sumXX, List.map_map, Function.comp] using this
  have hpos : 0 < pairSum (pts.map fun r => r.1) :=
    pairSum_pos _ (List.mem_map_of_mem _ hp) (List.mem_map_of_mem _ hq) hpq
  linarith [hx ▸ hpos]

lemma sumY_affine (l : List (ℝ × ℝ)) (a k : ℝ) (h : ∀ p ∈ l, p.2 = a + k * p.1) :
    sumY l = a * l.length + k * sumX l := by
  induction l with
  | nil => simp [sumY, sumX]
  | cons p l ih =>
    rw [sumY_cons, sumX_cons, h p (List.mem_cons_self _ _),
      ih fun q hq => h q (List.mem_cons_of_mem _ hq)]
    push_cast [List.length_cons]
    ring

lemma sumXY_affine (l : List (ℝ × ℝ)) (a k : ℝ) (h : ∀ p ∈ l, p.2 = a + k * p.1) :
    sumXY l = a * sumX l + k * sumXX l := by
  induction l with
  | nil => simp [sumXY, sumX, sumXX]
  | cons p l ih =>
    rw [sumXY_cons, sumX_cons, sumXX_cons, h p (List.mem_cons_self _ _),
      ih fun q hq => h q (List.mem_cons_of_mem _ hq)]
    ring

/-- On exactly log-linear data with at least two distinct regressor values,
the fitted OLS slope is the true slope. -/
lemma olsSlope_affine (l : List (ℝ × ℝ)) (a k : ℝ)
    (h : ∀ p ∈ l, p.2 = a + k * p.1)
    (hvar : ∃ p ∈ l, ∃ q ∈ l, p.1 ≠ q.1) :
    olsSlope l = k := by
  rcases hvar with ⟨p, hp, q, hq, hpq⟩
  have hden : 0 < (l.length : ℝ) * sumXX l - (sumX l) ^ 2 := den_pos l hp hq hpq
  rw [olsSlope, if_neg (ne_of_gt hden)]
  rw [sumXY_affine l a k h, sumY_affine l a k h]
  rw [show (l.length : ℝ) * (a * sumX l + k * sumXX l)
        - sumX l * (a * l.length + k * sumX l)
      = k * ((l.length : ℝ) * sumXX l - (sumX l) ^ 2) by ring]
  exact mul_div_cancel_right₀ k (ne_of_gt hden)

lemma sumX_const (l : List (ℝ × ℝ)) (c : ℝ) (h : ∀ p ∈ l, p.1 = c) :
    sumX l = l.length * c := by
  induction l with
  | nil => simp [sumX]
  | cons p l ih =>
    rw [sumX_cons, h p (List.mem_cons_self _ _),
      ih fun q hq => h q (List.mem_cons_of_mem _ hq)]
    push_cast [List.length_cons]
    ring

lemma sumXX_const (l : List (ℝ × ℝ)) (c : ℝ) (h : ∀ p ∈ l, p.1 = c) :
    sumXX l = l.length * c ^ 2 := by
  induction l with
  | nil => simp [sumXX]
  | cons p l ih =>
    rw [sumXX_cons, h p (List.mem_cons_self _ _),
      ih fun q hq => h q (List.mem_cons_of_mem _ hq)]
    push_cast [List.length_cons]
    ring

/-- On a sample whose regressor values are all equal, the design matrix is
rank deficient and the pseudoinverse slope is the minimum-norm one. -/
lemma olsSlope_const (l : List (ℝ × ℝ)) (c : ℝ) (h : ∀ p ∈ l, p.1 = c)
    (hne : l.length ≠ 0) :
    olsSlope l = c * (sumY l / l.length) / (1 + c ^ 2) := by
  have hlen : (l.length : ℝ) ≠ 0 := Nat.cast_ne_zero.mpr hne
  have hX := sumX_const l c h
  have hXX := sumXX_const l c h
  rw [olsSlope, if_pos (by rw [hX, hXX]; ring), hX]
  rw [show (l.length : ℝ) * c / l.length = c by field_simp]

/-- The fitted slope through exactly two points is the secant slope. -/
lemma olsSlope_two (x₁ y₁ x₂ y₂ : ℝ) (hx : x₁ ≠ x₂) :
    olsSlope [(x₁, y₁), (x₂, y₂)] = (y₁ - y₂) / (x₁ - x₂) := by
  have hden : (([(x₁, y₁), (x₂, y₂)] : List (ℝ × ℝ)).length : ℝ)
        * sumXX [(x₁, y₁), (x₂, y₂)] - (sumX [(x₁, y₁), (x₂, y₂)]) ^ 2
      = (x₁ - x₂) ^ 2 := by
    simp [sumX, sumXX]
    ring
  have hne : (x₁ - x₂) ^ 2 ≠ 0 := pow_ne_zero 2 (sub_ne_zero.mpr hx)
  rw [olsSlope, if_neg (by rw [hden]; exact hne), hden]
  have hnum : (([(x₁, y₁), (x₂, y₂)] : List (ℝ × ℝ)).length : ℝ)
        * sumXY [(x₁, y₁), (x₂, y₂)]
        - sumX [(x₁, y₁), (x₂, y₂)] * sumY [(x₁, y₁), (x₂, y₂)]
      = (x₁ - x₂) * (y₁ - y₂) := by
    simp [sumX, sumY, sumXY]
    ring
  rw [hnum, div_eq_div_iff hne (sub_ne_zero.mpr hx)]
  ring

/-! ### Deduplication and counting lemmas -/

lemma mem_uniqueFirstFrom [DecidableEq α] (l : List α) :
    ∀ (seen : List α) (a : α), a ∈ uniqueFirstFrom seen l ↔ a ∈ l ∧ a ∉ seen := by
  induction l with
  | nil => intro seen a; simp [uniqueFirstFrom]
  | cons x xs ih =>
    intro seen a
    by_cases hx : x ∈ seen
    · rw [uniqueFirstFrom, if_pos hx, ih]
      simp only [List.mem_cons]
      constructor
      · rintro ⟨h1, h2⟩; exact ⟨Or.inr h1, h2⟩
      · rintro ⟨h1 | h1, h2⟩
        · exact absurd (h1 ▸ hx) h2
        · exact ⟨h1, h2⟩
    · rw [uniqueFirstFrom, if_neg hx]
      simp only [List.mem_cons, ih (x :: seen) a, List.mem_cons]
      by_cases hax : a = x
      · subst hax; simp [hx]
      · simp [hax]

lemma mem_uniqueFirst [DecidableEq α] (l : List α) (a : α) :
    a ∈ uniqueFirst l ↔ a ∈ l := by
  rw [uniqueFirst, mem_uniqueFirstFrom]
  simp

lemma nodup_uniqueFirstFrom [DecidableEq α] (l : List α) :
    ∀ seen : List α, (uniqueFirstFrom seen l).Nodup := by
  induction l with
  | nil => intro seen; simp [uniqueFirstFrom]
  | cons x xs ih =>
    intro seen
    by_cases hx : x ∈ seen
    · rw [uniqueFirstFrom, if_pos hx]; exact ih seen
    · rw [uniqueFirstFrom, if_neg hx]
      refine List.nodup_cons.mpr ⟨fun hmem => ?_, ih (x :: seen)⟩
      exact ((mem_uniqueFirstFrom xs (x :: seen) x).mp hmem).2 (List.mem_cons_self _ _)

lemma nodup_uniqueFirst [DecidableEq α] (l : List α) : (uniqueFirst l).Nodup :=
  nodup_uniqueFirstFrom l []

lemma count_keyed [DecidableEq α] (l : List α) (hl : l.Nodup) (a : α) :
    (l.countP fun b => decide (b = a)) = if a ∈ l then 1 else 0 := by
  induction l with
  | nil => simp
  | cons x xs ih =>
    rcases List.nodup_cons.mp hl with ⟨hx, hxs⟩
    rw [List.countP_cons, ih hxs]
    by_cases hax : a = x
    · subst hax
      simp [hx]
    · simp [List.mem_cons, hax, Ne.symm hax]

/-- Counting rows of a table built by one row per (key, price type):
exactly one row matches each enumerated key and price type, zero rows
match anything else. -/
lemma countP_flatMap_keyed {κ ρ : Type} [DecidableEq κ] (keys : List κ)
    (pts : List String) (mk : κ → String → ρ) (keyOf : ρ → κ) (ptOf : ρ → String)
    (hkey : ∀ k t, keyOf (mk k t) = k) (hpt : ∀ k t, ptOf (mk k t) = t)
    (hnk : keys.Nodup) (hnt : pts.Nodup) (k₀ : κ) (t₀ : String) :
    ((keys.flatMap fun k => pts.map (mk k)).countP fun r =>
        decide (keyOf r = k₀) && decide (ptOf r = t₀))
      = if k₀ ∈ keys ∧ t₀ ∈ pts then 1 else 0 := by
  induction keys with
  | nil => simp
  | cons k ks ih =>
    rcases List.nodup_cons.mp hnk with ⟨hk, hks⟩
    rw [List.flatMap_cons, List.countP_append, List.countP_map, ih hks]
    have hinner : (pts.countP fun t =>
        (fun r => decide (keyOf r = k₀) && decide (ptOf r = t₀)) (mk k t))
        = if k = k₀ then (if t₀ ∈ pts then 1 else 0) else 0 := by
      by_cases hkk : k = k₀
      · subst hkk
        rw [if_pos rfl, ← count_keyed pts hnt t₀]
        apply List.countP_congr
        intro t _
        simp [hkey, hpt]
      · rw [if_neg hkk]
        have hz : (pts.countP fun t =>
            (fun r => decide (keyOf r = k₀) && decide (ptOf r = t₀)) (mk k t))
            = pts.countP fun _ => false := by
          apply List.countP_congr
          intro t _
          simp [hkey, hpt, hkk]
        rw [hz]
        simp
    rw [show (List.countP ((fun r => decide (keyOf r = k₀) && decide (ptOf r = t₀)) ∘ mk k) pts)
        = (pts.countP fun t =>
            (fun r => decide (keyOf r = k₀) && decide (ptOf r = t₀)) (mk k t)) from rfl, hinner]
    by_cases hkk : k = k₀
    · subst hkk
      simp only [if_pos rfl, List.mem_cons]
      have : k ∉ ks := hk
      by_cases ht : t₀ ∈ pts
      · simp [ht, this]
      · simp [ht, this]
    · simp only [if_neg hkk, List.mem_cons]
      have : (k₀ ∈ ks ∧ t₀ ∈ pts) ↔ ((k₀ = k ∨ k₀ ∈ ks) ∧ t₀ ∈ pts) := by
        constructor
        · rintro ⟨h1, h2⟩; exact ⟨Or.inr h1, h2⟩
        · rintro ⟨h1 | h1, h2⟩
          · exact absurd h1.symm hkk
          · exact ⟨h1, h2⟩
      simp [this]

/-- The row built for an enumerated key and price type is in the table. -/
lemma mem_flatMap_keyed {κ ρ : Type} (keys : List κ) (pts : List String)
    (mk : κ → String → ρ) {k₀ : κ} {t₀ : String}
    (hk : k₀ ∈ keys) (ht : t₀ ∈ pts) :
    mk k₀ t₀ ∈ keys.flatMap fun k => pts.map (mk k) :=
  List.mem_flatMap.mpr ⟨k₀, hk, List.mem_map_of_mem _ ht⟩

/-! ### Relating the two estimator variants, and concrete evaluations -/

/-- The batch estimator is the API estimator with `np.abs` applied to the
success value. -/
lemma batch_eq_map_abs_api (rows : List (ℚ × ℚ)) :
    Batch.compute_price_elasticity rows
      = Except.map (fun x => |x|) (ElasticityApi.compute_price_elasticity rows) := by
  rw [Batch.compute_price_elasticity, ElasticityApi.compute_price_elasticity]
  by_cases h : (validRows rows).length < 2
  · rw [if_pos h, if_pos h]; rfl
  · rw [if_neg h, if_neg h]; rfl

lemma log_ten_sub_log_five : Real.log 10 - Real.log 5 = Real.log 2 := by
  rw [← Real.log_div (by norm_num) (by norm_num)]
  norm_num

lemma log_hundred_sub_log_twohundred :
    Real.log 100 - Real.log 200 = -Real.log 2 := by
  rw [← Real.log_div (by norm_num) (by norm_num), show (100 : ℝ) / 200 = 2⁻¹ by norm_num,
    Real.log_inv]

lemma log_two_ne_zero : Real.log 2 ≠ 0 :=
  ne_of_gt (Real.log_pos (by norm_num))

/-- The API estimator on the two-point scenario-A sample returns the raw
signed slope −1. -/
lemma api_twopoint :
    ElasticityApi.compute_price_elasticity [((10 : ℚ), 100), ((5 : ℚ), 200)]
      = .ok (-1) := by
  have hv : validRows [((10 : ℚ), 100), ((5 : ℚ), 200)]
      = [((10 : ℚ), 100), ((5 : ℚ), 200)] := by decide
  rw [ElasticityApi.compute_price_elasticity, hv]
  rw [if_neg (by norm_num)]
  have hcast : (([((10 : ℚ), 100), ((5 : ℚ), 200)] : List (ℚ × ℚ)).map fun r =>
        (Real.log (r.2 : ℝ), Real.log (r.1 : ℝ)))
      = [((Real.log 100, Real.log 10)), ((Real.log 200, Real.log 5))] := by
    norm_num
  rw [hcast]
  have hx : Real.log 100 ≠ Real.log 200 := by
    intro h
    have h2 := congrArg Real.exp h
    rw [Real.exp_log (by norm_num), Real.exp_log (by norm_num)] at h2
    norm_num at h2
  rw [olsSlope_two _ _ _ _ hx, log_ten_sub_log_five, log_hundred_sub_log_twohundred,
    div_neg, div_self log_two_ne_zero]

/-- Every row of a table built as one row per enumerated key per price type
carries one of the two column-name price types. -/
lemma all_pt_keyed {κ ρ : Type} (keys : List κ) (mk : κ → String → ρ)
    (ptOf : ρ → String) (hpt : ∀ k t, ptOf (mk k t) = t) :
    ((keys.flatMap fun k => price_types.map (mk k)).all fun r =>
      decide (ptOf r = "regular_price") || decide (ptOf r = "sale_price")) = true := by
  rw [List.all_eq_true]
  intro r hr
  rcases List.mem_flatMap.mp hr with ⟨k, _, hr2⟩
  rcases List.mem_map.mp hr2 with ⟨t, ht, rfl⟩
  rw [hpt]
  simp only [price_types, List.mem_cons, List.not_mem_nil, or_false] at ht
  rcases ht with rfl | rfl <;> simp

/-- An if-then-else on a proposition does not depend on which decidability
witness is used. -/
lemma ite_irrel {c : Prop} {h1 h2 : Decidable c} (a b : ℕ) :
    @ite ℕ c h1 a b = @ite ℕ c h2 a b := by
  cases h1 <;> cases h2 <;> simp_all

/-! ### The claims -/

/-- Claim C4: for every sample whose size after validity filtering is 0 or
1, both implementations of the Regression Estimator fail with the typed
`InsufficientData` outcome (the `ValueError`, modelled as `Except.error`);
being total functions into `Except`, no unhandled exception or numeric
error ever reaches the caller. -/
theorem claim_C4 (rows : List (ℚ × ℚ)) (h : (validRows rows).length < 2) :
    ElasticityApi.compute_price_elasticity rows = .error .insufficientData
    ∧ Batch.compute_price_elasticity rows = .error .insufficientData := by
  rw [ElasticityApi.compute_price_elasticity, Batch.compute_price_elasticity,
    if_pos h, if_pos h]
  exact ⟨rfl, rfl⟩

/-- Witness for C4: the single-row sample (quantity 3, price 7). -/
theorem claim_C4_witness :
    (validRows [((3 : ℚ), 7)]).length < 2
    ∧ (ElasticityApi.compute_price_elasticity [((3 : ℚ), 7)]
          = .error .insufficientData
      ∧ Batch.compute_price_elasticity [((3 : ℚ), 7)]
          = .error .insufficientData) :=
  ⟨by decide, claim_C4 _ (by decide)⟩

/-- Claim C2: on every input sample the batch estimator stores the absolute
value of the slope the single-query estimator returns; in particular, on a
sample with a negative fitted slope the two paths produce values of
opposite sign. -/
theorem claim_C2 (rows : List (ℚ × ℚ)) :
    Batch.compute_price_elasticity rows
      = Except.map (fun x => |x|) (ElasticityApi.compute_price_elasticity rows)
    ∧ ∀ v : ℝ, ElasticityApi.compute_price_elasticity rows = .ok v → v < 0 →
        Batch.compute_price_elasticity rows = .ok (-v) ∧ 0 < -v := by
  refine ⟨batch_eq_map_abs_api rows, fun v hv hneg => ⟨?_, neg_pos.mpr hneg⟩⟩
  rw [batch_eq_map_abs_api rows, hv]
  simp [Except.map, abs_of_neg hneg]

/-- Witness for C2: on scenario A's two-point sample the single-query path
returns −1 while the batch path stores +1. -/
theorem claim_C2_witness :
    ElasticityApi.compute_price_elasticity [((10 : ℚ), 100), ((5 : ℚ), 200)] = .ok (-1)
    ∧ (-1 : ℝ) < 0
    ∧ Batch.compute_price_elasticity [((10 : ℚ), 100), ((5 : ℚ), 200)] = .ok 1
    ∧ (0 : ℝ) < 1 := by
  have h := (claim_C2 [((10 : ℚ), 100), ((5 : ℚ), 200)]).2 (-1) api_twopoint (by norm_num)
  refine ⟨api_twopoint, by norm_num, ?_, by norm_num⟩
  have h1 := h.1
  rwa [show -(-1 : ℝ) = 1 by norm_num] at h1

/-- Claim C10: the batch estimator's success values are non-negative (they
are absolute values), so wrapping its result in a further `np.abs` — as the
customer-level branch of the orchestrator does — is the identity; the
customer branch therefore stores the same value convention as the
product-level and pair-level branches, whose stored value is the plain
`toOption` of the estimator result. -/
theorem claim_C10 (rows : List (ℚ × ℚ)) :
    Except.map (fun x => |x|) (Batch.compute_price_elasticity rows)
        = Batch.compute_price_elasticity rows
    ∧ (Except.map (fun x => |x|) (Batch.compute_price_elasticity rows)).toOption
        = (Batch.compute_price_elasticity rows).toOption := by
  have h : Except.map (fun x => |x|) (Batch.compute_price_elasticity rows)
      = Batch.compute_price_elasticity rows := by
    rw [Batch.compute_price_elasticity]
    by_cases hlen : (validRows rows).length < 2
    · rw [if_pos hlen]; rfl
    · rw [if_neg hlen]
      simp [Except.map, abs_abs]
  exact ⟨h, by rw [h]⟩

/-- Claim C9: every row the batch orchestrator writes carries one of the
database column-name strings `"regular_price"` / `"sale_price"` as its
price type — not the `"regular"`/`"sale"` enumeration of the single-query
interface; indeed the single-query endpoint rejects the column-name strings
outright as invalid price types. -/
theorem claim_C9 (orders : List Order) (pid : Int) :
    ((compute_elasticities orders).1.all fun r =>
        decide (r.price_type = "regular_price") || decide (r.price_type = "sale_price")) = true
    ∧ ((compute_elasticities orders).2.1.all fun r =>
        decide (r.price_type = "regular_price") || decide (r.price_type = "sale_price")) = true
    ∧ ((compute_elasticities orders).2.2.all fun r =>
        decide (r.price_type = "regular_price") || decide (r.price_type = "sale_price")) = true
    ∧ get_product_elasticity orders pid "regular_price" = .error .invalidPriceType
    ∧ get_product_elasticity orders pid "sale_price" = .error .invalidPriceType := by
  refine ⟨?_, ?_, ?_, ?_, ?_⟩
  · exact all_pt_keyed (productEntities orders)
      (fun k t => ProductRow.mk k t
        (Batch.compute_price_elasticity (dfRows (ordersForProduct orders k) t)).toOption)
      (fun r => r.price_type) (fun k t => rfl)
  · exact all_pt_keyed (customerEntities orders)
      (fun k t => CustomerRow.mk k t
        (Except.map (fun x => |x|)
          (Batch.compute_price_elasticity (dfRows (ordersForCustomer orders k) t))).toOption)
      (fun r => r.price_type) (fun k t => rfl)
  · exact all_pt_keyed (pairEntities orders)
      (fun k t => PairRow.mk k.1 k.2 t
        (Batch.compute_price_elasticity (dfRows (ordersForPair orders k.1 k.2) t)).toOption)
      (fun r => r.price_type) (fun k t => rfl)
  · rw [get_product_elasticity, if_neg (by decide)]
  · rw [get_product_elasticity, if_neg (by decide)]

/-- Claim C8 (corrected): the batch run appends its freshly computed rows
to whatever the results store already holds (`CREATE TABLE IF NOT EXISTS`
never clears, every insert appends), so a second run over the unchanged
transaction store doubles the multiplicity of every row instead of leaving
the result set unchanged. -/
theorem claim_C8 (orders : List Order) (p : ProductRow → Bool)
    (q : CustomerRow → Bool) (w : PairRow → Bool) :
    ((run_batch orders (run_batch orders emptyStore)).products.countP p
        = 2 * (run_batch orders emptyStore).products.countP p)
    ∧ ((run_batch orders (run_batch orders emptyStore)).customers.countP q
        = 2 * (run_batch orders emptyStore).customers.countP q)
    ∧ ((run_batch orders (run_batch orders emptyStore)).pairs.countP w
        = 2 * (run_batch orders emptyStore).pairs.countP w) := by
  refine ⟨?_, ?_, ?_⟩ <;>
    simp [run_batch, create_result_tables, emptyStore, List.countP_append, two_mul]

/-- Counterexample to C8 as stated: over the one-transaction store, the
row keyed (product 7, "regular_price") is present once after one batch run
and twice after two — duplicate rows do accumulate. -/
theorem claim_C8_counterexample :
    (run_batch sampleOrders (run_batch sampleOrders emptyStore)).products.countP
        (fun r => decide (r.product_id = 7) && decide (r.price_type = "regular_price")) = 2
    ∧ (run_batch sampleOrders emptyStore).products.countP
        (fun r => decide (r.product_id = 7) && decide (r.price_type = "regular_price")) = 1 :=
  ⟨rfl, rfl⟩

/-- Claim C1: on any sample of at least two all-valid (quantity, price)
pairs following an exact power law `quantity = C·priceᵏ` with `k < 0` and
with at least two distinct prices (without price variation `k` is not
identifiable from the data), the regression recovers the elasticity
exactly: the single-query estimator returns the signed slope `k` and the
batch estimator returns `|k|`.  In particular on scenario A's two-point
sample the batch value is exactly 1. -/
theorem claim_C1 (rows : List (ℚ × ℚ)) (C k : ℝ) (hC : 0 < C) (_hk : k < 0)
    (hval : ∀ r ∈ rows, (0 : ℚ) < r.1 ∧ (0 : ℚ) < r.2)
    (hpow : ∀ r ∈ rows, (r.1 : ℝ) = C * (r.2 : ℝ) ^ k)
    (hlen : 2 ≤ rows.length)
    (hvar : ∃ r ∈ rows, ∃ s ∈ rows, r.2 ≠ s.2) :
    Batch.compute_price_elasticity rows = .ok |k|
    ∧ ElasticityApi.compute_price_elasticity rows = .ok k := by
  have hfilter : validRows rows = rows := by
    rw [validRows, List.filter_eq_self]
    intro r hr
    simp [decide_eq_true_eq, (hval r hr).1, (hval r hr).2]
  have haff : ∀ p ∈ (rows.map fun r => (Real.log (r.2 : ℝ), Real.log (r.1 : ℝ))),
      p.2 = Real.log C + k * p.1 := by
    intro p hp
    rcases List.mem_map.mp hp with ⟨r, hr, rfl⟩
    have hq : (0 : ℝ) < (r.2 : ℝ) := by exact_mod_cast (hval r hr).2
    show Real.log (r.1 : ℝ) = Real.log C + k * Real.log (r.2 : ℝ)
    rw [hpow r hr, Real.log_mul (ne_of_gt hC) (ne_of_gt (Real.rpow_pos_of_pos hq k)),
      Real.log_rpow hq]
  have hvarpts : ∃ p ∈ (rows.map fun r => (Real.log (r.2 : ℝ), Real.log (r.1 : ℝ))),
      ∃ q ∈ (rows.map fun r => (Real.log (r.2 : ℝ), Real.log (r.1 : ℝ))), p.1 ≠ q.1 := by
    rcases hvar with ⟨r, hr, s, hs, hrs⟩
    refine ⟨_, List.mem_map_of_mem _ hr, _, List.mem_map_of_mem _ hs, ?_⟩
    intro h
    apply hrs
    have hrpos : (0 : ℝ) < (r.2 : ℝ) := by exact_mod_cast (hval r hr).2
    have hspos : (0 : ℝ) < (s.2 : ℝ) := by exact_mod_cast (hval s hs).2
    have h2 := congrArg Real.exp h
    rw [show ((Real.log (r.2 : ℝ), Real.log (r.1 : ℝ)) : ℝ × ℝ).1 = Real.log (r.2 : ℝ) from rfl,
      show ((Real.log (s.2 : ℝ), Real.log (s.1 : ℝ)) : ℝ × ℝ).1 = Real.log (s.2 : ℝ) from rfl,
      Real.exp_log hrpos, Real.exp_log hspos] at h2
    exact_mod_cast h2
  have hslope : olsSlope (rows.map fun r => (Real.log (r.2 : ℝ), Real.log (r.1 : ℝ))) = k :=
    olsSlope_affine _ (Real.log C) k haff hvarpts
  have hnotlt : ¬ (validRows rows).length < 2 := by rw [hfilter]; omega
  constructor
  · rw [Batch.compute_price_elasticity, if_neg hnotlt, hfilter, hslope]
  · rw [ElasticityApi.compute_price_elasticity, if_neg hnotlt, hfilter, hslope]

/-- Witness for C1: scenario A, `quantity = 1000·price⁻¹` through
(10, 100) and (5, 200); the batch path returns exactly 1, the single-query
path exactly −1. -/
theorem claim_C1_witness :
    Batch.compute_price_elasticity [((10 : ℚ), 100), ((5 : ℚ), 200)] = .ok 1
    ∧ ElasticityApi.compute_price_elasticity [((10 : ℚ), 100), ((5 : ℚ), 200)] = .ok (-1) := by
  have h := claim_C1 [((10 : ℚ), 100), ((5 : ℚ), 200)] 1000 (-1) (by norm_num) (by norm_num)
    (by decide)
    (by
      intro r hr
      rcases List.mem_cons.mp hr with rfl | hr2
      · rw [show ((-1 : ℝ)) = ((-1 : ℤ) : ℝ) by norm_num, Real.rpow_intCast]
        push_cast
        norm_num
      · rcases List.mem_cons.mp hr2 with rfl | hr3
        · rw [show ((-1 : ℝ)) = ((-1 : ℤ) : ℝ) by norm_num, Real.rpow_intCast]
          push_cast
          norm_num
        · simp at hr3)
    (by decide)
    ⟨((10 : ℚ), 100), by decide, ((5 : ℚ), 200), by decide, by decide⟩
  refine ⟨?_, h.2⟩
  have h1 := h.1
  rwa [show |(-1 : ℝ)| = 1 by norm_num] at h1

/-- Claim C3: for every transaction set, the batch orchestrator emits
exactly one row per enumerated (entity, price type) combination in each of
the three tables — zero rows for unenumerated keys — and the row recorded
for an enumerated key carries the `toOption` of the estimator result, i.e.
a null elasticity exactly when the estimator fails; the orchestrator is a
total function, so no single entity's estimation failure aborts the
batch. -/
theorem claim_C3 (orders : List Order) (pid cid : Int) (cp : Int × Int) (pt : String) :
    ((compute_elasticities orders).1.countP fun r =>
        decide (r.product_id = pid) && decide (r.price_type = pt))
      = (if pid ∈ productEntities orders ∧ pt ∈ price_types then 1 else 0)
    ∧ ((compute_elasticities orders).2.1.countP fun r =>
        decide (r.customer_id = cid) && decide (r.price_type = pt))
      = (if cid ∈ customerEntities orders ∧ pt ∈ price_types then 1 else 0)
    ∧ ((compute_elasticities orders).2.2.countP fun r =>
        decide ((r.customer_id, r.product_id) = cp) && decide (r.price_type = pt))
      = (if cp ∈ pairEntities orders ∧ pt ∈ price_types then 1 else 0)
    ∧ (pid ∈ productEntities orders → pt ∈ price_types →
        ProductRow.mk pid pt
          (Batch.compute_price_elasticity (dfRows (ordersForProduct orders pid) pt)).toOption
          ∈ (compute_elasticities orders).1)
    ∧ (cid ∈ customerEntities orders → pt ∈ price_types →
        CustomerRow.mk cid pt
          (Except.map (fun x => |x|)
            (Batch.compute_price_elasticity (dfRows (ordersForCustomer orders cid) pt))).toOption
          ∈ (compute_elasticities orders).2.1)
    ∧ (cp ∈ pairEntities orders → pt ∈ price_types →
        PairRow.mk cp.1 cp.2 pt
          (Batch.compute_price_elasticity (dfRows (ordersForPair orders cp.1 cp.2) pt)).toOption
          ∈ (compute_elasticities orders).2.2) := by
  have hnt : price_types.Nodup := by decide
  refine ⟨?_, ?_, ?_, ?_, ?_, ?_⟩
  · exact countP_flatMap_keyed (productEntities orders) price_types
      (fun k t => ProductRow.mk k t
        (Batch.compute_price_elasticity (dfRows (ordersForProduct orders k) t)).toOption)
      (fun r => r.product_id) (fun r => r.price_type)
      (fun k t => rfl) (fun k t => rfl) (nodup_uniqueFirst _) hnt pid pt
  · exact countP_flatMap_keyed (customerEntities orders) price_types
      (fun k t => CustomerRow.mk k t
        (Except.map (fun x => |x|)
          (Batch.compute_price_elasticity (dfRows (ordersForCustomer orders k) t))).toOption)
      (fun r => r.customer_id) (fun r => r.price_type)
      (fun k t => rfl) (fun k t => rfl) (nodup_uniqueFirst _) hnt cid pt
  · exact (countP_flatMap_keyed (pairEntities orders) price_types
      (fun k t => PairRow.mk k.1 k.2 t
        (Batch.compute_price_elasticity (dfRows (ordersForPair orders k.1 k.2) t)).toOption)
      (fun r => (r.customer_id, r.product_id)) (fun r => r.price_type)
      (fun k t => rfl) (fun k t => rfl) (nodup_uniqueFirst _) hnt cp pt).trans
      (ite_irrel 1 0)
  · intro hk ht
    exact mem_flatMap_keyed (productEntities orders) price_types
      (fun k t => ProductRow.mk k t
        (Batch.compute_price_elasticity (dfRows (ordersForProduct orders k) t)).toOption) hk ht
  · intro hk ht
    exact mem_flatMap_keyed (customerEntities orders) price_types
      (fun k t => CustomerRow.mk k t
        (Except.map (fun x => |x|)
          (Batch.compute_price_elasticity (dfRows (ordersForCustomer orders k) t))).toOption) hk ht
  · intro hk ht
    exact mem_flatMap_keyed (pairEntities orders) price_types
      (fun k t => PairRow.mk k.1 k.2 t
        (Batch.compute_price_elasticity (dfRows (ordersForPair orders k.1 k.2) t)).toOption) hk ht

/-- Witness for C3 over the one-transaction store: its only product,
customer and pair each get their row for the regular-price column — with a
null elasticity, since one transaction is insufficient data — and the row
counts are exactly one. -/
theorem claim_C3_witness :
    ((7 : Int) ∈ productEntities sampleOrders ∧ "regular_price" ∈ price_types)
    ∧ ((compute_elasticities sampleOrders).1.countP fun r =>
        decide (r.product_id = 7) && decide (r.price_type = "regular_price")) = 1
    ∧ ProductRow.mk 7 "regular_price"
        (Batch.compute_price_elasticity
          (dfRows (ordersForProduct sampleOrders 7) "regular_price")).toOption
        ∈ (compute_elasticities sampleOrders).1
    ∧ CustomerRow.mk 1 "regular_price"
        (Except.map (fun x => |x|)
          (Batch.compute_price_elasticity
            (dfRows (ordersForCustomer sampleOrders 1) "regular_price"))).toOption
        ∈ (compute_elasticities sampleOrders).2.1
    ∧ PairRow.mk 1 7 "regular_price"
        (Batch.compute_price_elasticity
          (dfRows (ordersForPair sampleOrders 1 7) "regular_price")).toOption
        ∈ (compute_elasticities sampleOrders).2.2 := by
  refine ⟨⟨by decide, by decide⟩, ?_, ?_, ?_, ?_⟩
  · rw [(claim_C3 sampleOrders 7 1 (1, 7) "regular_price").1, if_pos ⟨by decide, by decide⟩]
  · exact (claim_C3 sampleOrders 7 1 (1, 7) "regular_price").2.2.2.1 (by decide) (by decide)
  · exact (claim_C3 sampleOrders 7 1 (1, 7) "regular_price").2.2.2.2.1 (by decide) (by decide)
  · exact (claim_C3 sampleOrders 7 1 (1, 7) "regular_price").2.2.2.2.2 (by decide) (by decide)

/-- Claim C7: the batch orchestrator's customer-product entities are
exactly the observed distinct (customer, product) pairs — a pair key occurs
in the pair table if and only if some transaction carries both ids
together, never for mere cross-product combinations — and the enumeration
is duplicate-free. -/
theorem claim_C7 (orders : List Order) (cid pid : Int) :
    ((cid, pid) ∈ pairEntities orders
        ↔ ∃ o ∈ orders, o.customer_id = cid ∧ o.product_id = pid)
    ∧ (pairEntities orders).Nodup
    ∧ ((∃ r ∈ (compute_elasticities orders).2.2,
          r.customer_id = cid ∧ r.product_id = pid)
        ↔ ∃ o ∈ orders, o.customer_id = cid ∧ o.product_id = pid) := by
  have hmem : (cid, pid) ∈ pairEntities orders
      ↔ ∃ o ∈ orders, o.customer_id = cid ∧ o.product_id = pid := by
    rw [pairEntities, mem_uniqueFirst]
    simp only [List.mem_map, Prod.mk.injEq]
  refine ⟨hmem, nodup_uniqueFirst _, ?_, ?_⟩
  · rintro ⟨r, hr, hc, hp⟩
    rcases List.mem_flatMap.mp hr with ⟨cp, hcp, hr2⟩
    rcases List.mem_map.mp hr2 with ⟨t, _, rfl⟩
    exact hmem.mp ((Prod.ext hc hp : cp = (cid, pid)) ▸ hcp)
  · intro h
    refine ⟨_, mem_flatMap_keyed (pairEntities orders) price_types
      (fun k t => PairRow.mk k.1 k.2 t
        (Batch.compute_price_elasticity (dfRows (ordersForPair orders k.1 k.2) t)).toOption)
      (hmem.mpr h) (show "regular_price" ∈ price_types by decide), rfl, rfl⟩

/-- Counterexample to C5 as stated: on the two-row sample
[(qty 2, price 5), (qty 4, price 5)] — size 2 after filtering, zero price
variance — the single-query estimator does not fail at all: it succeeds
(statsmodels fits the rank-deficient design through the pseudoinverse), and
the batch estimator likewise returns a success rather than the claimed
typed `DegenerateRegression` failure, an outcome the code does not even
define. -/
theorem claim_C5_counterexample :
    (ElasticityApi.compute_price_elasticity [((2 : ℚ), 5), ((4 : ℚ), 5)]).toOption.isSome = true
    ∧ (Batch.compute_price_elasticity [((2 : ℚ), 5), ((4 : ℚ), 5)]).toOption.isSome = true :=
  ⟨rfl, rfl⟩

/-- Claim C5 (corrected): on every filtered sample of size at least 2 with
all prices identical, the estimator does not detect the degeneracy: it
succeeds, returning the finite minimum-norm pseudoinverse slope
`log p₀ · ȳ / (1 + (log p₀)²)` where `ȳ` is the mean log quantity.  (In the
exact real model this value is a real number, so no NaN or infinity is
produced — but neither is any `DegenerateRegression` failure, which the
code does not define.) -/
theorem claim_C5 (rows : List (ℚ × ℚ)) (p₀ : ℚ)
    (hlen : 2 ≤ (validRows rows).length)
    (hp : ∀ r ∈ validRows rows, r.2 = p₀) :
    ElasticityApi.compute_price_elasticity rows
      = .ok (Real.log (p₀ : ℝ) *
          ((((validRows rows).map fun r => Real.log (r.1 : ℝ)).sum)
            / ((validRows rows).length : ℝ))
          / (1 + Real.log (p₀ : ℝ) ^ 2)) := by
  rw [ElasticityApi.compute_price_elasticity, if_neg (Nat.not_lt.mpr hlen)]
  have hconst : ∀ p ∈ ((validRows rows).map fun r =>
      (Real.log (r.2 : ℝ), Real.log (r.1 : ℝ))), p.1 = Real.log (p₀ : ℝ) := by
    intro p hpmem
    rcases List.mem_map.mp hpmem with ⟨r, hr, rfl⟩
    show Real.log (r.2 : ℝ) = Real.log (p₀ : ℝ)
    rw [hp r hr]
  have hne : ((validRows rows).map fun r =>
      (Real.log (r.2 : ℝ), Real.log (r.1 : ℝ))).length ≠ 0 := by
    rw [List.length_map]
    omega
  rw [olsSlope_const _ (Real.log (p₀ : ℝ)) hconst hne]
  have hY : sumY ((validRows rows).map fun r =>
        (Real.log (r.2 : ℝ), Real.log (r.1 : ℝ)))
      = ((validRows rows).map fun r => Real.log (r.1 : ℝ)).sum := by
    rw [sumY, List.map_map]
    rfl
  rw [hY, List.length_map]

/-- Witness for C5 (corrected) at the concrete zero-variance sample. -/
theorem claim_C5_witness :
    2 ≤ (validRows [((2 : ℚ), 5), ((4 : ℚ), 5)]).length
    ∧ (∀ r ∈ validRows [((2 : ℚ), 5), ((4 : ℚ), 5)], r.2 = 5)
    ∧ ElasticityApi.compute_price_elasticity [((2 : ℚ), 5), ((4 : ℚ), 5)]
      = .ok (Real.log ((5 : ℚ) : ℝ) *
          ((((validRows [((2 : ℚ), 5), ((4 : ℚ), 5)]).map fun r =>
              Real.log (r.1 : ℝ)).sum)
            / ((validRows [((2 : ℚ), 5), ((4 : ℚ), 5)]).length : ℝ))
          / (1 + Real.log ((5 : ℚ) : ℝ) ^ 2)) :=
  ⟨by decide, by decide, claim_C5 _ 5 (by decide) (by decide)⟩

/-- Counterexample to C6 as stated: against the one-transaction store, a
query for product 999 (zero matching transactions) and a query for
product 7 (exactly one matching transaction) return the very same error —
HTTP 400 with the insufficient-data detail.  The single-query path of
`elasticity_api.py` has no distinct `NoMatchingData` outcome: the 0-row
and 1-row states are not distinguished. -/
theorem claim_C6_counterexample :
    get_product_elasticity sampleOrders 999 "regular"
        = get_product_elasticity sampleOrders 7 "regular"
    ∧ get_product_elasticity sampleOrders 999 "regular"
        = .error (.badRequest
            "Not enough valid data points to run the regression (need at least 2).") :=
  ⟨rfl, rfl⟩

/-- Claim C6 (corrected): whenever fewer than two valid rows match a
single-product query — whether zero rows or one — `get_product_elasticity`
returns the one and only insufficient-data error (HTTP 400 carrying the
`ValueError` message); only the ≥2-row state is distinguished from the
other two. -/
theorem claim_C6 (orders : List Order) (pid : Int) (pt col : String)
    (hcol : (pt = "regular" ∧ col = "regular_price")
      ∨ (pt = "sale" ∧ col = "sale_price"))
    (hlen : (validRows (productQuery orders pid col)).length < 2) :
    get_product_elasticity orders pid pt
      = .error (.badRequest
          "Not enough valid data points to run the regression (need at least 2).") := by
  rcases hcol with ⟨rfl, rfl⟩ | ⟨rfl, rfl⟩
  · have hins : ElasticityApi.compute_price_elasticity
        (productQuery orders pid "regular_price") = .error .insufficientData := by
      rw [ElasticityApi.compute_price_elasticity, if_pos hlen]
    rw [get_product_elasticity, if_pos (by decide),
      show (if ("regular" : String) = "regular" then "regular_price" else "sale_price")
        = "regular_price" from rfl, hins]
    rfl
  · have hins : ElasticityApi.compute_price_elasticity
        (productQuery orders pid "sale_price") = .error .insufficientData := by
      rw [ElasticityApi.compute_price_elasticity, if_pos hlen]
    rw [get_product_elasticity, if_pos (by decide),
      show (if ("sale" : String) = "regular" then "regular_price" else "sale_price")
        = "sale_price" from rfl, hins]
    rfl

/-- Witness for C6 (corrected): scenario C — product 999 has no
transactions at all, and the endpoint returns the insufficient-data 400. -/
theorem claim_C6_witness :
    (validRows (productQuery sampleOrders 999 "regular_price")).length < 2
    ∧ get_product_elasticity sampleOrders 999 "regular"
        = .error (.badRequest
            "Not enough valid data points to run the regression (need at least 2).") :=
  ⟨by decide, claim_C6 sampleOrders 999 "regular" "regular_price"
    (Or.inl ⟨rfl, rfl⟩) (by decide)⟩
